import Mathlib

/-!
Verification development for the JEP analytics dashboard (`app.py`).

The script loads a tab-delimited CSV into a pandas DataFrame, normalizes
column names, parses two timestamp columns, derives `Year_Created` and
`Duration_Days`, substitutes the sentinel `"REVISAR"` in three categorical
columns, and then filters and aggregates the table for display.

We embed the DataFrame as a `Frame`: a header (list of column names) and a
list of rows, each row a list of `Cell`s.  A `Cell` is either a text value,
a timestamp (seconds since the Unix epoch), an integer, or null (pandas
NaN/NaT).  Column-wise pandas operations act on every row independently, so
they are modelled as per-row maps once the relevant column indexes are
resolved.  Modelling notes on third-party behaviour that is out of scope:
`read_csv`'s dtype inference is not modelled (all parsed fields stay text or
null), `to_datetime` is modelled for date-valued fields (the formats the
script's comment names, e.g. `2025/3/31`), and `to_csv` quoting is not
modelled (round-trip statements carry explicit cleanliness hypotheses).
-/

namespace JepApp

/-- One DataFrame cell: text, timestamp (seconds since epoch), integer, or
pandas null (NaN/NaT). -/
inductive Cell where
  | str (s : String)
  | ts (t : Int)
  | int (n : Int)
  | null
deriving DecidableEq, Repr

/-- An in-memory table: column names plus rows of cells. -/
structure Frame where
  header : List String
  rows : List (List Cell)
deriving DecidableEq, Repr

/-- A frame is well-formed when every row has exactly one cell per column. -/
def Frame.wf (f : Frame) : Prop :=
  ∀ r ∈ f.rows, r.length = f.header.length

/-- `df.copy()`: value-level copy of the table. -/
def Frame.copy (f : Frame) : Frame := ⟨f.header, f.rows⟩

/-- Index of the first column with the given name (pandas `df[c]` column
lookup; `none` models the `KeyError` raised for an absent column). -/
def findCol : List String → String → Option Nat
  | [], _ => none
  | h :: t, c => if h = c then some 0 else (findCol t c).map (· + 1)

/-- Read a row's cell at a column index (missing positions read as null,
as pandas fills short rows with NaN). -/
def getC (r : List Cell) (i : Nat) : Cell := r.getD i Cell.null

/-! ### Character and string utilities -/

/-- Python regex `\s` whitespace class. -/
def isWS (c : Char) : Bool :=
  c = ' ' || c = '\t' || c = '\n' || c = '\x0d' || c = '\x0b' || c = '\x0c'

/-- Drop leading and trailing whitespace (Python `str.strip()`). -/
def trimWS (cs : List Char) : List Char :=
  ((cs.dropWhile isWS).reverse.dropWhile isWS).reverse

/-- Collapse whitespace runs to a single underscore (regex replace
`\s+` with an underscore).  The flag records whether the previous
character was whitespace. -/
def collapseWS : Bool → List Char → List Char
  | _, [] => []
  | prev, c :: rest =>
    if isWS c then
      if prev then collapseWS true rest else '_' :: collapseWS true rest
    else c :: collapseWS false rest

/-- Column-name normalization from the loader:
`df.columns.str.strip().str.replace('\s+', '_', regex=True)`. -/
def normName (s : String) : String :=
  String.mk (collapseWS false (trimWS s.data))

/-- Split a character list on a separator character; always returns at
least one (possibly empty) field. -/
def splitOnChar (sep : Char) : List Char → List (List Char)
  | [] => [[]]
  | c :: rest =>
    match splitOnChar sep rest with
    | [] => [[]]
    | g :: gs => if c = sep then [] :: g :: gs else (c :: g) :: gs

/-- The decimal digit character for a value below ten. -/
def digitChar (n : Nat) : Char :=
  match n with
  | 0 => '0'
  | 1 => '1'
  | 2 => '2'
  | 3 => '3'
  | 4 => '4'
  | 5 => '5'
  | 6 => '6'
  | 7 => '7'
  | 8 => '8'
  | _ => '9'

/-- Digits of a natural number, most significant first.  The first
argument is fuel (any bound on the number of digits works). -/
def natDigits : Nat → Nat → List Char
  | 0, _ => []
  | fuel + 1, n =>
    if n = 0 then []
    else natDigits fuel (n / 10) ++ [digitChar (n % 10)]

/-- Decimal rendering of a natural number. -/
def natToStr (n : Nat) : String :=
  if n = 0 then "0" else String.mk (natDigits (n + 1) n)

/-- Decimal rendering of an integer. -/
def intToStr (i : Int) : String :=
  if i < 0 then "-" ++ natToStr i.natAbs else natToStr i.natAbs

/-- Parse a non-empty all-digit character list as a natural number. -/
def parseNatDigits (cs : List Char) : Option Nat :=
  if cs ≠ [] ∧ cs.all Char.isDigit then
    some (cs.foldl (fun acc c => acc * 10 + (c.toNat - 48)) 0)
  else none

/-! ### Calendar arithmetic (civil-from-days and back) -/

/-- Days from civil date (proleptic Gregorian), day 0 = 1970-01-01. -/
def daysFromCivil (y m d : Int) : Int :=
  let y2 := if m ≤ 2 then y - 1 else y
  let era := y2.fdiv 400
  let yoe := y2 - era * 400
  let mp := if 2 < m then m - 3 else m + 9
  let doy := (153 * mp + 2).fdiv 5 + d - 1
  let doe := yoe * 365 + yoe.fdiv 4 - yoe.fdiv 100 + doy
  era * 146097 + doe - 719468

/-- Civil date (year, month, day) from a day count, inverse of
`daysFromCivil`. -/
def civilFromDays (z0 : Int) : Int × Int × Int :=
  let z := z0 + 719468
  let era := z.fdiv 146097
  let doe := z - era * 146097
  let yoe := (doe - doe.fdiv 1460 + doe.fdiv 36524 - doe.fdiv 146096).fdiv 365
  let y := yoe + era * 400
  let doy := doe - (365 * yoe + yoe.fdiv 4 - yoe.fdiv 100)
  let mp := (5 * doy + 2).fdiv 153
  let d := doy - (153 * mp + 2).fdiv 5 + 1
  let m := if mp < 10 then mp + 3 else mp - 9
  (if m ≤ 2 then y + 1 else y, m, d)

/-- Leap year test. -/
def isLeap (y : Nat) : Bool :=
  y % 4 = 0 && (y % 100 ≠ 0 || y % 400 = 0)

/-- Number of days in a month. -/
def daysInMonth (y m : Nat) : Nat :=
  if m = 2 then (if isLeap y then 29 else 28)
  else if m = 4 ∨ m = 6 ∨ m = 9 ∨ m = 11 then 30 else 31

/-- Parse a date-valued field (`YYYY/M/D` or `YYYY-M-D`, the formats the
loader's comment names) to a day count; `none` for unparseable values,
mirroring `pd.to_datetime(..., errors='coerce')` giving NaT. -/
def parseDate (s : String) : Option Int :=
  let cs := trimWS s.data
  let sep := if cs.contains '/' then '/' else '-'
  match (splitOnChar sep cs).map parseNatDigits with
  | [some y, some m, some d] =>
    if 1000 ≤ y ∧ 1 ≤ m ∧ m ≤ 12 ∧ 1 ≤ d ∧ d ≤ daysInMonth y m then
      some (daysFromCivil (Int.ofNat y) (Int.ofNat m) (Int.ofNat d))
    else none
  | _ => none

/-- Seconds in a day. -/
def secPerDay : Int := 86400

/-! ### CSV parsing and writing -/

/-- A raw field becomes a text cell, an empty field becomes null (pandas
reads empty fields as NaN). -/
def fieldToCell (cs : List Char) : Cell :=
  if cs = [] then Cell.null else Cell.str (String.mk cs)

/-- Normalize a parsed row to the header width: truncate extras, fill
missing trailing fields with null. -/
def normRow (n : Nat) (r : List Cell) : List Cell :=
  r.take n ++ List.replicate (n - r.length) Cell.null

/-- Parse delimited text into a frame: first line is the header, every
other line is a row of fields split on the separator. -/
def parseCSV (sep : Char) (text : String) : Frame :=
  match splitOnChar '\n' text.data with
  | [] => ⟨[], []⟩
  | h :: rest =>
    let header := (splitOnChar sep h).map String.mk
    ⟨header,
     rest.map fun l => normRow header.length ((splitOnChar sep l).map fieldToCell)⟩

/-- Text rendering of a cell for export (`df.to_csv`): null prints as the
empty field, timestamps print as `YYYY-MM-DD`. -/
def cellText : Cell → String
  | Cell.str s => s
  | Cell.int n => intToStr n
  | Cell.ts t =>
    let c := civilFromDays (t.fdiv secPerDay)
    intToStr c.1 ++ "-" ++
      (if c.2.1 < 10 then "0" else "") ++ intToStr c.2.1 ++ "-" ++
      (if c.2.2 < 10 then "0" else "") ++ intToStr c.2.2
  | Cell.null => ""

/-- Join character lists with a separator character between consecutive
pieces. -/
def joinSep (sep : Char) : List (List Char) → List Char
  | [] => []
  | [g] => g
  | g :: gs => g ++ sep :: joinSep sep gs

/-- Serialize a frame as delimited text (`df.to_csv(index=False)` with the
given separator; quoting of dirty fields is not modelled, so round-trip
statements assume fields free of the separator and newlines). -/
def writeCSV (sep : Char) (f : Frame) : String :=
  String.mk (joinSep '\n'
    ((joinSep sep (f.header.map String.data)) ::
      f.rows.map fun r => joinSep sep (r.map fun c => (cellText c).data)))

/-! ### The loader (`load_data`) -/

/-- `pd.to_datetime(column, errors='coerce')` on one cell: date-valued text
becomes a timestamp, everything else becomes null (NaT). -/
def toDatetime : Cell → Cell
  | Cell.str s =>
    match parseDate s with
    | some d => Cell.ts (d * secPerDay)
    | none => Cell.null
  | _ => Cell.null

/-- `df['Created'].dt.year` on one cell. -/
def yearCell : Cell → Cell
  | Cell.ts t => Cell.int (civilFromDays (t.fdiv secPerDay)).1
  | _ => Cell.null

/-- `(df['Updated'] - df['Created']).dt.days` on one row: whole-day floor
of the difference, null when either endpoint is null. -/
def durCell : Cell → Cell → Cell
  | Cell.ts tu, Cell.ts tc => Cell.int ((tu - tc).fdiv secPerDay)
  | _, _ => Cell.null

/-- `column.replace(sentinel, repl)` on one cell: only the exact text
sentinel is replaced; nulls and every other value pass through. -/
def replaceCell (sentinel repl : String) : Cell → Cell
  | Cell.str s => if s = sentinel then Cell.str repl else Cell.str s
  | c => c

/-- Column assignment target (`df[name] = ...`): reuse the column when the
name exists, otherwise append a new column at the end. -/
def assignCol (hdr : List String) (name : String) : List String × Nat :=
  match findCol hdr name with
  | some i => (hdr, i)
  | none => (hdr ++ [name], hdr.length)

/-- Grow a row to the given width with nulls so a newly assigned column
has a slot. -/
def padTo (n : Nat) (r : List Cell) : List Cell :=
  r ++ List.replicate (n - r.length) Cell.null

/-- The per-row effect of the loader's column operations, in source order:
parse `Created` and `Updated`, assign `Year_Created` and `Duration_Days`,
then apply the `REVISAR` substitution to `Status`, `Owner`, `Release`.
`m` is the width of the header after the derived columns are assigned. -/
def procRow (ic iu iy idur istat iown irel m : Nat) (r0 : List Cell) : List Cell :=
  let r := r0.set ic (toDatetime (getC r0 ic))
  let r := r.set iu (toDatetime (getC r iu))
  let r := padTo m r
  let r := r.set iy (yearCell (getC r ic))
  let r := r.set idur (durCell (getC r iu) (getC r ic))
  let r := r.set istat (replaceCell "REVISAR" "Unknown" (getC r istat))
  let r := r.set iown (replaceCell "REVISAR" "Unknown" (getC r iown))
  let r := r.set irel (replaceCell "REVISAR" "TBD" (getC r irel))
  r

/-- Body of `load_data`'s `try` block on an already-parsed frame.  Column
names are normalized first; each `df[c]` access of an absent column throws
(modelling the `KeyError`, whose `str` is the quoted column name), in the
order the source accesses the columns.  The column-wise pandas statements
act row-wise once the column indexes are resolved, so the row transform is
`procRow`. -/
def loadFromFrame (f0 : Frame) : Except String Frame :=
  let hdr := f0.header.map normName
  match findCol hdr "Created" with
  | none => Except.error "'Created'"
  | some ic =>
    match findCol hdr "Updated" with
    | none => Except.error "'Updated'"
    | some iu =>
      let a1 := assignCol hdr "Year_Created"
      let a2 := assignCol a1.1 "Duration_Days"
      match findCol a2.1 "Status" with
      | none => Except.error "'Status'"
      | some istat =>
        match findCol a2.1 "Owner" with
        | none => Except.error "'Owner'"
        | some iown =>
          match findCol a2.1 "Release" with
          | none => Except.error "'Release'"
          | some irel =>
            Except.ok
              ⟨a2.1,
               f0.rows.map (procRow ic iu a1.2 a2.2 istat iown irel a2.1.length)⟩

/-- What the one read of `datos_jeps.csv` can produce: the file is missing,
some other I/O error occurs, or text is read. -/
inductive ReadResult where
  | fileNotFound
  | readError (msg : String)
  | ok (text : String)

/-- Error banner for a missing input file. -/
def fnfMessage : String :=
  "❌ No se encontró el archivo 'datos_jeps.csv'. Asegúrate de tenerlo en el mismo directorio."

/-- Error banner for any other load failure, wrapping the underlying
exception text. -/
def loadErrMessage (m : String) : String :=
  "❌ Error al cargar los datos: " ++ m

/-- `load_data()`: parse the tab-delimited file and run the cleaning
pipeline; on `FileNotFoundError` or any other exception report a message
and return no table.  The result pairs the returned table (`None` on
failure) with the reported error banner, if any. -/
def load_data : ReadResult → Option Frame × Option String
  | ReadResult.fileNotFound => (none, some fnfMessage)
  | ReadResult.readError m => (none, some (loadErrMessage m))
  | ReadResult.ok text =>
    match loadFromFrame (parseCSV '\t' text) with
    | Except.ok t => (some t, none)
    | Except.error m => (none, some (loadErrMessage m))

/-- What `main` renders after the load: the instruction block when no
table came back, otherwise the dashboard over the table. -/
inductive MainView where
  | guidance
  | dashboard (t : Frame)
deriving DecidableEq, Repr

/-- The `if df is None` gate at the top of `main`. -/
def renderMain (r : ReadResult) : MainView :=
  match (load_data r).1 with
  | none => MainView.guidance
  | some t => MainView.dashboard t

/-! ### Filter engine -/

/-- Pandas element-wise `==`: null (NaN) compares unequal to everything,
including itself; values of different kinds compare unequal. -/
def cellEq : Cell → Cell → Bool
  | Cell.null, _ => false
  | _, Cell.null => false
  | Cell.str a, Cell.str b => a = b
  | Cell.ts a, Cell.ts b => a = b
  | Cell.int a, Cell.int b => a = b
  | _, _ => false

/-- The match-all sentinel offered first in every selector. -/
def todos : Cell := Cell.str "Todos"

/-- `df_filtrado[df_filtrado[c] == v]`: keep the rows whose cell in column
`c` equals `v`.  The missing-column branch is unreachable in the modelled
flow — every loaded table carries the filter columns (pandas would raise
`KeyError` there). -/
def colFilter (t : Frame) (c : String) (v : Cell) : Frame :=
  match findCol t.header c with
  | some i => ⟨t.header, t.rows.filter (fun r => cellEq (getC r i) v)⟩
  | none => t

/-- The filter block of `main`: copy the loaded table, then filter by
status, creation year, and owner, each skipped when its selector is the
`'Todos'` sentinel. -/
def applyFilters (t : Frame) (s y o : Cell) : Frame :=
  let t1 := t.copy
  let t2 := if s = todos then t1 else colFilter t1 "Status" s
  let t3 := if y = todos then t2 else colFilter t2 "Year_Created" y
  if o = todos then t3 else colFilter t3 "Owner" o

/-- Read the cell of row `r` under the column named `c` of frame `t`. -/
def cellAt (t : Frame) (c : String) (r : List Cell) : Cell :=
  match findCol t.header c with
  | some i => getC r i
  | none => Cell.null

/-- The conjunction of the three equality predicates, with `'Todos'`
disabling a dimension. -/
def selPred (t : Frame) (s y o : Cell) (r : List Cell) : Bool :=
  (decide (s = todos) || cellEq (cellAt t "Status" r) s) &&
  (decide (y = todos) || cellEq (cellAt t "Year_Created" r) y) &&
  (decide (o = todos) || cellEq (cellAt t "Owner" r) o)

/-- First-occurrence deduplication with an accumulator of already seen
values (`pd.unique` keeps first occurrences in order). -/
def uniqAux {α : Type} [DecidableEq α] (seen : List α) : List α → List α
  | [] => []
  | a :: t => if a ∈ seen then uniqAux seen t else a :: uniqAux (a :: seen) t

/-- `pd.unique`: distinct values in first-occurrence order. -/
def uniqFirst {α : Type} [DecidableEq α] (l : List α) : List α := uniqAux [] l

/-- The cells of one column, top to bottom ([] for an absent column). -/
def colCells (t : Frame) (c : String) : List Cell :=
  match findCol t.header c with
  | some i => t.rows.map (fun r => getC r i)
  | none => []

/-- `df['Owner'].unique()`: the distinct owner cells, nulls included. -/
def ownerValues (t : Frame) : List Cell := uniqFirst (colCells t "Owner")

/-- The union clause of the filter claim: every row is recovered by
filtering on some distinct owner value. -/
def ownerUnionReconstructs (t : Frame) : Prop :=
  ∀ r ∈ t.rows, ∃ v ∈ ownerValues t, r ∈ (colFilter t "Owner" v).rows

/-! ### Sorting (insertion sort, kept executable for the kernel) -/

/-- Insert into a sorted list, after existing entries it ties with (so the
overall sort is stable). -/
def insertLe {α : Type} (le : α → α → Bool) (a : α) : List α → List α
  | [] => [a]
  | b :: t => if le a b then a :: b :: t else b :: insertLe le a t

/-- Stable insertion sort by a boolean "less or equal". -/
def sortLe {α : Type} (le : α → α → Bool) : List α → List α
  | [] => []
  | a :: t => insertLe le a (sortLe le t)

/-- Lexicographic order on character lists by code point, as Python and
pandas order strings. -/
def charListLe : List Char → List Char → Bool
  | [], _ => true
  | _ :: _, [] => false
  | a :: at2, b :: bt => if a = b then charListLe at2 bt else decide (a < b)

/-- Lexicographic "less or equal" on strings. -/
def strLe (a b : String) : Bool := charListLe a.data b.data

/-! ### Aggregations / chart builders -/

/-- `column.astype(str)` on one cell: pandas renders NaN as `"nan"`. -/
def cellStr : Cell → String
  | Cell.str s => s
  | Cell.null => "nan"
  | c => cellText c

/-- The regex `^\d+$`: one or more decimal digits and nothing else. -/
def isDigitsStr (s : String) : Bool :=
  !s.data.isEmpty && s.data.all Char.isDigit

/-- The `Release` column coerced to text (`astype(str)`), given the
column's index. -/
def releaseStrings (t : Frame) (i : Nat) : List String :=
  t.rows.map (fun r => cellStr (getC r i))

/-- `create_release_chart`: coerce `Release` to text on a copy, keep the
all-digit values, and chart counts per distinct value sorted ascending by
value (`value_counts().sort_index()`; the keys are distinct, so sorting by
key alone reproduces the count-then-index sort).  `None` when no valid
release remains. -/
def create_release_chart (t : Frame) : Option (List (String × Nat)) :=
  match findCol t.header "Release" with
  | none => none
  | some i =>
    let valid := (releaseStrings t i).filter isDigitsStr
    if valid.isEmpty then none
    else some (sortLe (fun a b => strLe a.1 b.1)
      ((uniqFirst valid).map (fun v => (v, valid.count v))))

/-- The mask `df['Duration_Days'] > 0`: true only for positive integers
(null compares false, as NaN does). -/
def cellPos : Cell → Bool
  | Cell.int n => decide (0 < n)
  | _ => false

/-- `create_duration_analysis`: the positive durations, charted as a
histogram with 30 bins; `None` when none qualify. -/
def create_duration_analysis (t : Frame) : Option (List Cell × Nat) :=
  match findCol t.header "Duration_Days" with
  | none => none
  | some i =>
    let valid := (t.rows.map (fun r => getC r i)).filter cellPos
    if valid.isEmpty then none else some (valid, 30)

/-- `column.value_counts()`: drop nulls, count per distinct value, order
by descending count with ties in first-encountered order. -/
def valueCounts (l : List Cell) : List (Cell × Nat) :=
  let l2 := l.filter (fun c => !(c == Cell.null))
  sortLe (fun a b => decide (b.2 ≤ a.2)) ((uniqFirst l2).map (fun v => (v, l2.count v)))

/-- `create_status_chart`: a pie chart of the status counts.  It always
returns a figure, also over an empty table. -/
def create_status_chart (t : Frame) : Option (List (Cell × Nat)) :=
  some (valueCounts (colCells t "Status"))

/-- `create_authors_chart`: bar chart of the ten largest owner counts. -/
def create_authors_chart (t : Frame) : Option (List (Cell × Nat)) :=
  some ((valueCounts (colCells t "Owner")).take 10)

/-- Ascending order on year keys for `groupby('Year_Created')`. -/
def yearKeyLe (a b : Cell × Nat) : Bool :=
  match a.1, b.1 with
  | Cell.int x, Cell.int y => decide (x ≤ y)
  | _, _ => true

/-- `df.groupby('Year_Created').size()`: counts per observed year (nulls
dropped by groupby), ascending by year. -/
def yearlyCounts (t : Frame) : List (Cell × Nat) :=
  let ys := (colCells t "Year_Created").filter (fun c => !(c == Cell.null))
  sortLe yearKeyLe ((uniqFirst ys).map (fun v => (v, ys.count v)))

/-- `create_timeline_chart`: line chart of the yearly creation counts. -/
def create_timeline_chart (t : Frame) : Option (List (Cell × Nat)) :=
  some (yearlyCounts t)

/-- What one dashboard tab shows: a chart or the informational
placeholder (`st.info`). -/
inductive TabView (α : Type) where
  | chart (c : α)
  | placeholder
deriving DecidableEq, Repr

/-- Status tab: `main` guards on a non-empty filtered table before calling
the builder, else shows the placeholder. -/
def statusTabView (t : Frame) : TabView (List (Cell × Nat)) :=
  if 0 < t.rows.length then
    match create_status_chart t with
    | some c => TabView.chart c
    | none => TabView.placeholder
  else TabView.placeholder

/-- Authors tab, same guard as the status tab. -/
def authorsTabView (t : Frame) : TabView (List (Cell × Nat)) :=
  if 0 < t.rows.length then
    match create_authors_chart t with
    | some c => TabView.chart c
    | none => TabView.placeholder
  else TabView.placeholder

/-- Timeline tab: guarded by a non-empty table that still carries the
`Year_Created` column. -/
def timelineTabView (t : Frame) : TabView (List (Cell × Nat)) :=
  if 0 < t.rows.length ∧ "Year_Created" ∈ t.header then
    match create_timeline_chart t with
    | some c => TabView.chart c
    | none => TabView.placeholder
  else TabView.placeholder

/-- Release tab: the builder itself decides, `main` shows the placeholder
exactly when it returned `None`. -/
def releaseTabView (t : Frame) : TabView (List (String × Nat)) :=
  match create_release_chart t with
  | some c => TabView.chart c
  | none => TabView.placeholder

/-- Duration panel: placeholder exactly when the builder returned
`None`. -/
def durationTabView (t : Frame) : TabView (List Cell × Nat) :=
  match create_duration_analysis t with
  | some c => TabView.chart c
  | none => TabView.placeholder

/-! ### Operation sequences over the loaded table (frame conditions) -/

/-- The operations `main` runs against the loaded table. -/
inductive Op where
  | filt (s y o : Cell)
  | statusAgg
  | authorsAgg
  | timelineAgg
  | releaseAgg
  | durationAgg

/-- Result of one operation. -/
inductive OpOut where
  | table (t : Frame)
  | cellCounts (l : Option (List (Cell × Nat)))
  | relCounts (l : Option (List (String × Nat)))
  | durData (l : Option (List Cell × Nat))

/-- Run one operation against the loaded table, returning the table as it
stands afterwards together with the operation's output.  Filtering starts
from `df.copy()` and the release builder coerces on its own copy, so the
stored table is returned as-is. -/
def runOp (t : Frame) : Op → Frame × OpOut
  | Op.filt s y o => (t, OpOut.table (applyFilters t s y o))
  | Op.statusAgg => (t, OpOut.cellCounts (create_status_chart t))
  | Op.authorsAgg => (t, OpOut.cellCounts (create_authors_chart t))
  | Op.timelineAgg => (t, OpOut.cellCounts (create_timeline_chart t))
  | Op.releaseAgg => (t, OpOut.relCounts (create_release_chart t))
  | Op.durationAgg => (t, OpOut.durData (create_duration_analysis t))

/-- Run a sequence of filter/aggregate operations, threading the stored
table. -/
def runOps (t : Frame) : List Op → Frame × List OpOut
  | [] => (t, [])
  | op :: ops =>
    let s1 := runOp t op
    let s2 := runOps s1.1 ops
    (s2.1, s1.2 :: s2.2)

/-! ### Export round trip -/

/-- The source (non-derived) columns of the data model. -/
def sourceCols : List String :=
  ["Number", "Title", "Owner", "Status", "Release", "Created", "Updated"]

/-- The text rendering of one named column, `none` when the column is
absent. -/
def colTextVals (f : Frame) (c : String) : Option (List String) :=
  (findCol f.header c).map (fun i => f.rows.map (fun r => cellText (getC r i)))

/-- The round-trip claim's success notion: every source column of the
original is present in the re-parsed frame with the same text values
(timestamps compared through their text encoding). -/
def sourceValuesReproduced (orig reparsed : Frame) : Prop :=
  ∀ c ∈ sourceCols, colTextVals reparsed c = colTextVals orig c

/-- A cell as the re-parse sees it: its text rendering, empty text read
back as null. -/
def textify (c : Cell) : Cell := fieldToCell (cellText c).data

/-- Cleanliness of a frame for a given delimiter: a non-empty header,
rows of header width, and no delimiter, newline, or empty rendering
hiding inside a name or a non-null cell (pandas would quote those;
quoting is not modelled). -/
def cleanFrame (sep : Char) (f : Frame) : Bool :=
  !f.header.isEmpty &&
  f.header.all (fun nm => nm.data.all (fun ch => !(ch == sep) && !(ch == '\n'))) &&
  f.rows.all (fun r => r.length == f.header.length) &&
  f.rows.all (fun r => r.all (fun c =>
    (cellText c).data.all (fun ch => !(ch == sep) && !(ch == '\n')) &&
    (c == Cell.null || !(cellText c).data.isEmpty)))

instance (t : Frame) : Decidable (ownerUnionReconstructs t) := by
  unfold ownerUnionReconstructs; infer_instance

instance (a b : Frame) : Decidable (sourceValuesReproduced a b) := by
  unfold sourceValuesReproduced; infer_instance

instance (f : Frame) : Decidable f.wf := by
  unfold Frame.wf; infer_instance

/-! ### Lemmas about column lookup -/

theorem findCol_eq_none {l : List String} {c : String} :
    findCol l c = none ↔ c ∉ l := by
  induction l with
  | nil => simp [findCol]
  | cons h t ih =>
    by_cases hc : h = c
    · simp [findCol, hc]
    · simp only [findCol, hc, if_false, Option.map_eq_none', ih, List.mem_cons,
        not_or]
      constructor
      · intro hn
        exact ⟨fun he => hc he.symm, hn⟩
      · intro hn
        exact hn.2

theorem findCol_lt_length {l : List String} {c : String} {i : Nat}
    (h : findCol l c = some i) : i < l.length := by
  induction l generalizing i with
  | nil => simp [findCol] at h
  | cons hd t ih =>
    by_cases hc : hd = c
    · simp only [findCol, hc, if_true, Option.some.injEq] at h
      subst h
      simp
    · simp only [findCol, hc, if_false, Option.map_eq_some'] at h
      obtain ⟨j, hj, rfl⟩ := h
      have := ih hj
      simp only [List.length_cons]
      omega

theorem findCol_getD {l : List String} {c : String} {i : Nat}
    (h : findCol l c = some i) : l.getD i "" = c := by
  induction l generalizing i with
  | nil => simp [findCol] at h
  | cons hd t ih =>
    by_cases hc : hd = c
    · simp only [findCol, hc, if_true, Option.some.injEq] at h
      subst h
      simpa using hc
    · simp only [findCol, hc, if_false, Option.map_eq_some'] at h
      obtain ⟨j, hj, rfl⟩ := h
      simpa using ih hj

theorem findCol_append {l1 l2 : List String} {c : String} :
    findCol (l1 ++ l2) c =
      match findCol l1 c with
      | some i => some i
      | none => (findCol l2 c).map (· + l1.length)
  := by
  induction l1 with
  | nil => simp [findCol]
  | cons hd t ih =>
    by_cases hc : hd = c
    · simp [findCol, hc]
    · have hstep : findCol (hd :: t) c = (findCol t c).map (· + 1) := by
        rw [findCol, if_neg hc]
      rw [List.cons_append, findCol, if_neg hc, ih, hstep]
      cases hfc : findCol t c with
      | some i => simp
      | none =>
        cases findCol l2 c with
        | none => simp
        | some j =>
          simp only [Option.map_none', Option.map_some', Option.some.injEq,
            List.length_cons]
          omega

theorem findCol_append_left {l1 l2 : List String} {c : String} {i : Nat}
    (h : findCol l1 c = some i) : findCol (l1 ++ l2) c = some i := by
  rw [findCol_append, h]

theorem assignCol_findCol (hdr : List String) (n : String) :
    findCol (assignCol hdr n).1 n = some (assignCol hdr n).2 := by
  unfold assignCol
  cases hfc : findCol hdr n with
  | some i => simpa using hfc
  | none =>
    simp only [findCol_append, hfc]
    simp [findCol]

theorem assignCol_preserve {hdr : List String} {n c : String} (hne : c ≠ n) :
    findCol (assignCol hdr n).1 c = findCol hdr c := by
  unfold assignCol
  cases hfc : findCol hdr n with
  | some i => simp
  | none =>
    simp only [findCol_append]
    cases hc : findCol hdr c with
    | some i => simp
    | none => simp [findCol, Ne.symm hne]

theorem assignCol_mem {hdr : List String} {n c : String}
    (h : c ∈ (assignCol hdr n).1) : c ∈ hdr ∨ c = n := by
  unfold assignCol at h
  cases hfc : findCol hdr n with
  | some i => rw [hfc] at h; exact Or.inl h
  | none =>
    rw [hfc] at h
    simpa using h

/-! ### Lemmas about reading and writing row positions -/

theorem getC_set_self {r : List Cell} {i : Nat} {v : Cell} (h : i < r.length) :
    getC (r.set i v) i = v := by
  induction r generalizing i with
  | nil => simp at h
  | cons hd t ih =>
    cases i with
    | zero => simp [getC]
    | succ j =>
      simp only [List.set]
      simp only [getC, List.getD_cons_succ] at ih ⊢
      exact ih (by simpa using h)

theorem getC_set_ne {r : List Cell} {i j : Nat} {v : Cell} (h : i ≠ j) :
    getC (r.set i v) j = getC r j := by
  induction r generalizing i j with
  | nil => simp [getC]
  | cons hd t ih =>
    cases i with
    | zero =>
      cases j with
      | zero => exact absurd rfl h
      | succ k => simp [getC]
    | succ a =>
      cases j with
      | zero => simp [getC]
      | succ k =>
        simp only [List.set, getC, List.getD_cons_succ]
        exact ih (by omega)

theorem getC_map {g : Cell → Cell} (hg : g Cell.null = Cell.null)
    (r : List Cell) (i : Nat) : getC (r.map g) i = g (getC r i) := by
  induction r generalizing i with
  | nil => simp [getC, hg]
  | cons hd t ih =>
    cases i with
    | zero => simp [getC]
    | succ j => simpa [getC] using ih j

theorem getC_append_lt {r s : List Cell} {i : Nat} (h : i < r.length) :
    getC (r ++ s) i = getC r i := by
  induction r generalizing i with
  | nil => simp at h
  | cons hd t ih =>
    cases i with
    | zero => simp [getC]
    | succ j =>
      simp only [List.cons_append, getC, List.getD_cons_succ]
      exact ih (by simpa using h)

theorem getC_padTo_lt {r : List Cell} {m i : Nat} (h : i < r.length) :
    getC (padTo m r) i = getC r i :=
  getC_append_lt h

theorem length_padTo (m : Nat) (r : List Cell) :
    (padTo m r).length = max r.length m := by
  simp [padTo]
  omega

/-! ### Lemmas about first-occurrence deduplication -/

theorem mem_uniqAux {α : Type} [DecidableEq α] {seen l : List α} {a : α} :
    a ∈ uniqAux seen l ↔ a ∈ l ∧ a ∉ seen := by
  induction l generalizing seen with
  | nil => simp [uniqAux]
  | cons hd t ih =>
    by_cases hm : hd ∈ seen
    · rw [uniqAux, if_pos hm, ih]
      constructor
      · rintro ⟨h1, h2⟩
        exact ⟨List.mem_cons_of_mem _ h1, h2⟩
      · rintro ⟨h1, h2⟩
        rcases List.mem_cons.mp h1 with rfl | h1
        · exact absurd hm h2
        · exact ⟨h1, h2⟩
    · rw [uniqAux, if_neg hm]
      constructor
      · intro hmem
        rcases List.mem_cons.mp hmem with rfl | hmem
        · exact ⟨List.mem_cons_self _ _, hm⟩
        · rcases ih.mp hmem with ⟨h1, h2⟩
          have h3 : a ∉ seen := fun hc => h2 (List.mem_cons_of_mem _ hc)
          exact ⟨List.mem_cons_of_mem _ h1, h3⟩
      · rintro ⟨h1, h2⟩
        rcases List.mem_cons.mp h1 with rfl | h1
        · exact List.mem_cons_self _ _
        · by_cases hea : a = hd
          · subst hea
            exact List.mem_cons_self _ _
          · refine List.mem_cons_of_mem _ (ih.mpr ⟨h1, ?_⟩)
            intro hc
            rcases List.mem_cons.mp hc with h | h
            · exact hea h
            · exact h2 h

theorem mem_uniqFirst {α : Type} [DecidableEq α] {l : List α} {a : α} :
    a ∈ uniqFirst l ↔ a ∈ l := by
  simp [uniqFirst, mem_uniqAux]

theorem nodup_uniqAux {α : Type} [DecidableEq α] (seen l : List α) :
    (uniqAux seen l).Nodup := by
  induction l generalizing seen with
  | nil => simp [uniqAux]
  | cons hd t ih =>
    by_cases hm : hd ∈ seen
    · simpa [uniqAux, hm] using ih seen
    · simp only [uniqAux, if_neg hm, List.nodup_cons]
      refine ⟨fun hc => ?_, ih _⟩
      exact (mem_uniqAux.mp hc).2 (by simp)

theorem nodup_uniqFirst {α : Type} [DecidableEq α] (l : List α) :
    (uniqFirst l).Nodup := nodup_uniqAux [] l

/-! ### Lemmas about the insertion sort -/

theorem perm_insertLe {α : Type} (le : α → α → Bool) (a : α) (l : List α) :
    (insertLe le a l).Perm (a :: l) := by
  induction l with
  | nil => simp [insertLe]
  | cons b t ih =>
    by_cases hle : le a b
    · simp [insertLe, hle]
    · rw [insertLe, if_neg hle]
      exact (ih.cons b).trans (List.Perm.swap a b t)

theorem perm_sortLe {α : Type} (le : α → α → Bool) (l : List α) :
    (sortLe le l).Perm l := by
  induction l with
  | nil => simp [sortLe]
  | cons a t ih =>
    exact (perm_insertLe le a (sortLe le t)).trans (ih.cons a)

theorem pairwise_insertLe {α : Type} {le : α → α → Bool}
    (htot : ∀ a b, le a b = false → le b a = true)
    (htrans : ∀ a b c, le a b = true → le b c = true → le a c = true)
    {l : List α} (a : α) (h : l.Pairwise (fun x y => le x y = true)) :
    (insertLe le a l).Pairwise (fun x y => le x y = true) := by
  induction l with
  | nil => simp [insertLe]
  | cons b t ih =>
    rcases List.pairwise_cons.mp h with ⟨hb, ht⟩
    by_cases hle : le a b
    · rw [insertLe, if_pos hle]
      refine List.pairwise_cons.mpr ⟨?_, h⟩
      intro x hx
      rcases List.mem_cons.mp hx with rfl | hx
      · exact hle
      · exact htrans a b x hle (hb x hx)
    · rw [insertLe, if_neg hle]
      refine List.pairwise_cons.mpr ⟨?_, ih ht⟩
      intro x hx
      have hx2 := (perm_insertLe le a t).mem_iff.mp hx
      rcases List.mem_cons.mp hx2 with hxa | hx2
      · subst hxa
        exact htot _ b (by simpa using hle)
      · exact hb x hx2

theorem pairwise_sortLe {α : Type} {le : α → α → Bool}
    (htot : ∀ a b, le a b = false → le b a = true)
    (htrans : ∀ a b c, le a b = true → le b c = true → le a c = true)
    (l : List α) :
    (sortLe le l).Pairwise (fun x y => le x y = true) := by
  induction l with
  | nil => simp [sortLe]
  | cons a t ih => exact pairwise_insertLe htot htrans a ih

theorem Frame.copy_eq (t : Frame) : t.copy = t := rfl

/-! ### Lemmas about the lexicographic string order -/

theorem charListLe_total : ∀ a b : List Char,
    charListLe a b = false → charListLe b a = true := by
  intro a
  induction a with
  | nil => intro b h; simp [charListLe] at h
  | cons x xt ih =>
    intro b h
    cases b with
    | nil => rfl
    | cons y yt =>
      by_cases hxy : x = y
      · rw [charListLe, if_pos hxy] at h
        rw [charListLe, if_pos (hxy.symm)]
        exact ih yt h
      · rw [charListLe, if_neg hxy] at h
        rw [charListLe, if_neg (fun he => hxy he.symm)]
        rcases lt_trichotomy x y with hlt | heq | hgt
        · exact absurd (decide_eq_true hlt) (by simp [h])
        · exact absurd heq hxy
        · simpa using hgt

theorem charListLe_trans : ∀ a b c : List Char,
    charListLe a b = true → charListLe b c = true → charListLe a c = true := by
  intro a
  induction a with
  | nil => intro b c _ _; rfl
  | cons x xt ih =>
    intro b c hab hbc
    cases b with
    | nil => simp [charListLe] at hab
    | cons y yt =>
      cases c with
      | nil => simp [charListLe] at hbc
      | cons z zt =>
        by_cases hxy : x = y <;> by_cases hyz : y = z
        · rw [charListLe, if_pos hxy] at hab
          rw [charListLe, if_pos hyz] at hbc
          rw [charListLe, if_pos (hxy.trans hyz)]
          exact ih yt zt hab hbc
        · rw [charListLe, if_neg hyz] at hbc
          have hlt : y < z := of_decide_eq_true hbc
          have hxz : x ≠ z := fun he => hyz (hxy.symm.trans he)
          rw [charListLe, if_neg hxz]
          exact decide_eq_true (hxy ▸ hlt)
        · rw [charListLe, if_neg hxy] at hab
          have hlt : x < y := of_decide_eq_true hab
          have hxz : x ≠ z := fun he => hxy (he.trans hyz.symm)
          rw [charListLe, if_neg hxz]
          exact decide_eq_true (hyz ▸ hlt)
        · rw [charListLe, if_neg hxy] at hab
          rw [charListLe, if_neg hyz] at hbc
          have h1 : x < y := of_decide_eq_true hab
          have h2 : y < z := of_decide_eq_true hbc
          have h3 : x < z := lt_trans h1 h2
          rw [charListLe, if_neg (ne_of_lt h3)]
          exact decide_eq_true h3

theorem strLe_total (a b : String) (h : strLe a b = false) : strLe b a = true :=
  charListLe_total a.data b.data h

theorem strLe_trans (a b c : String) (h1 : strLe a b = true)
    (h2 : strLe b c = true) : strLe a c = true :=
  charListLe_trans a.data b.data c.data h1 h2

/-! ### Lemmas about the filter engine -/

theorem colFilter_header (t : Frame) (c : String) (v : Cell) :
    (colFilter t c v).header = t.header := by
  rw [colFilter]
  cases findCol t.header c <;> rfl

theorem colFilter_rows {t : Frame} {c : String} {i : Nat} (v : Cell)
    (h : findCol t.header c = some i) :
    (colFilter t c v).rows = t.rows.filter (fun r => cellEq (getC r i) v) := by
  rw [colFilter, h]

theorem cellAt_eq {t : Frame} {c : String} {i : Nat} (r : List Cell)
    (h : findCol t.header c = some i) : cellAt t c r = getC r i := by
  rw [cellAt, h]

theorem cellEq_self {c : Cell} (h : c ≠ Cell.null) : cellEq c c = true := by
  cases c with
  | str s => simp [cellEq]
  | ts t => simp [cellEq]
  | int n => simp [cellEq]
  | null => exact absurd rfl h

theorem filterStep_rows {t : Frame} {c : String} {i : Nat} (v : Cell)
    (h : findCol t.header c = some i) :
    (if v = todos then t else colFilter t c v).rows =
      t.rows.filter (fun r => decide (v = todos) || cellEq (getC r i) v) := by
  by_cases hv : v = todos
  · rw [if_pos hv]
    have : (fun r : List Cell => decide (v = todos) || cellEq (getC r i) v) =
        fun _ => true := by
      funext r
      simp [hv]
    rw [this, List.filter_true]
  · rw [if_neg hv, colFilter_rows v h]
    apply List.filter_congr
    intro r _
    simp [hv]

theorem filterStep_header (t : Frame) (c : String) (v : Cell) :
    (if v = todos then t else colFilter t c v).header = t.header := by
  by_cases hv : v = todos
  · rw [if_pos hv]
  · rw [if_neg hv, colFilter_header]

/-! ### Lemmas about splitting and joining delimited text -/

theorem splitOnChar_ne_nil (sep : Char) (cs : List Char) :
    splitOnChar sep cs ≠ [] := by
  cases cs with
  | nil => simp [splitOnChar]
  | cons c rest =>
    rw [splitOnChar]
    cases splitOnChar sep rest with
    | nil => simp
    | cons g gs =>
      by_cases hc : c = sep
      · simp [hc]
      · simp [hc]

theorem splitOnChar_nosep {sep : Char} {cs : List Char} (h : ¬ sep ∈ cs) :
    splitOnChar sep cs = [cs] := by
  induction cs with
  | nil => rfl
  | cons c rest ih =>
    have hcs : ¬ sep ∈ rest := fun hm => h (List.mem_cons_of_mem _ hm)
    have hcne : ¬ c = sep := fun he => h (he ▸ List.mem_cons_self _ _)
    rw [splitOnChar, ih hcs]
    simp [hcne]

theorem splitOnChar_append {sep : Char} {a rest : List Char} (h : ¬ sep ∈ a) :
    splitOnChar sep (a ++ sep :: rest) = a :: splitOnChar sep rest := by
  induction a with
  | nil =>
    rw [List.nil_append, splitOnChar]
    cases hsp : splitOnChar sep rest with
    | nil => exact absurd hsp (splitOnChar_ne_nil sep rest)
    | cons g gs => simp
  | cons c a2 ih =>
    have ha2 : ¬ sep ∈ a2 := fun hm => h (List.mem_cons_of_mem _ hm)
    have hcne : ¬ c = sep := fun he => h (he ▸ List.mem_cons_self _ _)
    rw [List.cons_append, splitOnChar, ih ha2]
    simp [hcne]

theorem splitOnChar_joinSep {sep : Char} :
    ∀ {gs : List (List Char)}, gs ≠ [] → (∀ g ∈ gs, ¬ sep ∈ g) →
      splitOnChar sep (joinSep sep gs) = gs := by
  intro gs
  induction gs with
  | nil => intro h _; exact absurd rfl h
  | cons g gs2 ih =>
    intro _ hall
    cases gs2 with
    | nil => exact splitOnChar_nosep (hall g (List.mem_cons_self _ _))
    | cons g2 gs3 =>
      have hjoin : joinSep sep (g :: g2 :: gs3) =
          g ++ sep :: joinSep sep (g2 :: gs3) := rfl
      rw [hjoin, splitOnChar_append (hall g (List.mem_cons_self _ _))]
      rw [ih (by simp) (fun x hx => hall x (List.mem_cons_of_mem _ hx))]

theorem mem_joinSep {sep c : Char} :
    ∀ {gs : List (List Char)}, c ∈ joinSep sep gs →
      c = sep ∨ ∃ g ∈ gs, c ∈ g := by
  intro gs
  induction gs with
  | nil => intro h; simp [joinSep] at h
  | cons g gs2 ih =>
    intro h
    cases gs2 with
    | nil => exact Or.inr ⟨g, List.mem_cons_self _ _, h⟩
    | cons g2 gs3 =>
      have hjoin : joinSep sep (g :: g2 :: gs3) =
          g ++ sep :: joinSep sep (g2 :: gs3) := rfl
      rw [hjoin] at h
      rcases List.mem_append.mp h with hg | hrest
      · exact Or.inr ⟨g, List.mem_cons_self _ _, hg⟩
      · rcases List.mem_cons.mp hrest with he | hjm
        · exact Or.inl he
        · rcases ih hjm with he | ⟨g3, hg3, hc3⟩
          · exact Or.inl he
          · exact Or.inr ⟨g3, List.mem_cons_of_mem _ hg3, hc3⟩

theorem normRow_eq_self {n : Nat} {r : List Cell} (h : r.length = n) :
    normRow n r = r := by
  rw [normRow, ← h, List.take_length, Nat.sub_self, List.replicate_zero,
    List.append_nil]

theorem map_mk_data (l : List String) :
    (l.map String.data).map String.mk = l := by
  rw [List.map_map]
  exact List.map_id l

theorem cellText_textify (c : Cell) : cellText (textify c) = cellText c := by
  rw [textify, fieldToCell]
  by_cases h : (cellText c).data = []
  · rw [if_pos h]
    have h2 : cellText c = String.mk (cellText c).data := rfl
    rw [h2, h]
    rfl
  · rw [if_neg h]
    show String.mk (cellText c).data = cellText c
    rfl

theorem textify_null : textify Cell.null = Cell.null := rfl

/-! ### Lemmas about the loader's row transform -/

theorem assignCol_le_length (hdr : List String) (n : String) :
    hdr.length ≤ (assignCol hdr n).1.length := by
  rw [assignCol]
  cases findCol hdr n with
  | some i => simp
  | none => simp

theorem toDatetime_cases (c : Cell) :
    toDatetime c = Cell.null ∨ ∃ x : Int, toDatetime c = Cell.ts x := by
  cases c with
  | str s =>
    rw [toDatetime]
    cases parseDate s with
    | none => exact Or.inl rfl
    | some d => exact Or.inr ⟨d * secPerDay, rfl⟩
  | ts x => exact Or.inl rfl
  | int n => exact Or.inl rfl
  | null => exact Or.inl rfl

theorem procRow_getC (ic iu iy idur istat iown irel m : Nat) (r0 : List Cell)
    (hic : ic < r0.length) (hiu : iu < r0.length) (hnm : r0.length ≤ m)
    (hidur : idur < m) (hciu : ic ≠ iu)
    (h1 : iy ≠ ic) (h2 : iy ≠ iu)
    (h3 : idur ≠ ic) (h4 : idur ≠ iu)
    (h5 : istat ≠ ic) (h6 : istat ≠ iu) (h7 : istat ≠ idur)
    (h8 : iown ≠ ic) (h9 : iown ≠ iu) (h10 : iown ≠ idur)
    (h11 : irel ≠ ic) (h12 : irel ≠ iu) (h13 : irel ≠ idur) :
    getC (procRow ic iu iy idur istat iown irel m r0) ic =
      toDatetime (getC r0 ic) ∧
    getC (procRow ic iu iy idur istat iown irel m r0) iu =
      toDatetime (getC r0 iu) ∧
    getC (procRow ic iu iy idur istat iown irel m r0) idur =
      durCell (toDatetime (getC r0 iu)) (toDatetime (getC r0 ic)) := by
  simp only [procRow]
  set r1 := r0.set ic (toDatetime (getC r0 ic)) with hr1
  set r2 := r1.set iu (toDatetime (getC r1 iu)) with hr2
  set r3 := padTo m r2 with hr3
  set r4 := r3.set iy (yearCell (getC r3 ic)) with hr4
  set r5 := r4.set idur (durCell (getC r4 iu) (getC r4 ic)) with hr5
  set r6 := r5.set istat (replaceCell "REVISAR" "Unknown" (getC r5 istat)) with hr6
  set r7 := r6.set iown (replaceCell "REVISAR" "Unknown" (getC r6 iown)) with hr7
  have l1 : r1.length = r0.length := by rw [hr1]; simp
  have l2 : r2.length = r0.length := by rw [hr2, List.length_set, l1]
  have l3 : r3.length = m := by
    rw [hr3, length_padTo, l2]
    omega
  have l4 : r4.length = m := by rw [hr4, List.length_set, l3]
  have g1ic : getC r1 ic = toDatetime (getC r0 ic) := by
    rw [hr1]
    exact getC_set_self hic
  have g1iu : getC r1 iu = getC r0 iu := by
    rw [hr1]
    exact getC_set_ne hciu
  have g2ic : getC r2 ic = toDatetime (getC r0 ic) := by
    rw [hr2, getC_set_ne (Ne.symm hciu), g1ic]
  have g2iu : getC r2 iu = toDatetime (getC r0 iu) := by
    rw [hr2, getC_set_self (by omega), g1iu]
  have g3ic : getC r3 ic = toDatetime (getC r0 ic) := by
    rw [hr3, getC_padTo_lt (by omega), g2ic]
  have g3iu : getC r3 iu = toDatetime (getC r0 iu) := by
    rw [hr3, getC_padTo_lt (by omega), g2iu]
  have g4ic : getC r4 ic = toDatetime (getC r0 ic) := by
    rw [hr4, getC_set_ne h1, g3ic]
  have g4iu : getC r4 iu = toDatetime (getC r0 iu) := by
    rw [hr4, getC_set_ne h2, g3iu]
  have g5ic : getC r5 ic = toDatetime (getC r0 ic) := by
    rw [hr5, getC_set_ne h3, g4ic]
  have g5iu : getC r5 iu = toDatetime (getC r0 iu) := by
    rw [hr5, getC_set_ne h4, g4iu]
  have g5dur : getC r5 idur =
      durCell (toDatetime (getC r0 iu)) (toDatetime (getC r0 ic)) := by
    rw [hr5, getC_set_self (by omega), g4iu, g4ic]
  have g6ic : getC r6 ic = toDatetime (getC r0 ic) := by
    rw [hr6, getC_set_ne h5, g5ic]
  have g6iu : getC r6 iu = toDatetime (getC r0 iu) := by
    rw [hr6, getC_set_ne h6, g5iu]
  have g6dur : getC r6 idur =
      durCell (toDatetime (getC r0 iu)) (toDatetime (getC r0 ic)) := by
    rw [hr6, getC_set_ne h7, g5dur]
  have g7ic : getC r7 ic = toDatetime (getC r0 ic) := by
    rw [hr7, getC_set_ne h8, g6ic]
  have g7iu : getC r7 iu = toDatetime (getC r0 iu) := by
    rw [hr7, getC_set_ne h9, g6iu]
  have g7dur : getC r7 idur =
      durCell (toDatetime (getC r0 iu)) (toDatetime (getC r0 ic)) := by
    rw [hr7, getC_set_ne h10, g6dur]
  refine ⟨?_, ?_, ?_⟩
  · rw [getC_set_ne h11, g7ic]
  · rw [getC_set_ne h12, g7iu]
  · rw [getC_set_ne h13, g7dur]

theorem cleanFrame_parts {sep : Char} {f : Frame} (hc : cleanFrame sep f = true) :
    f.header ≠ [] ∧
    (∀ nm ∈ f.header, ∀ ch ∈ nm.data, ch ≠ sep ∧ ch ≠ '\n') ∧
    (∀ r ∈ f.rows, r.length = f.header.length) ∧
    (∀ r ∈ f.rows, ∀ c ∈ r,
      (∀ ch ∈ (cellText c).data, ch ≠ sep ∧ ch ≠ '\n') ∧
      (c = Cell.null ∨ (cellText c).data ≠ [])) := by
  rw [cleanFrame] at hc
  simp only [Bool.and_eq_true, List.all_eq_true, Bool.not_eq_true',
    Bool.or_eq_true, beq_iff_eq, List.isEmpty_eq_false, List.isEmpty_iff] at hc
  obtain ⟨⟨⟨h1, h2⟩, h3⟩, h4⟩ := hc
  refine ⟨h1, ?_, h3, ?_⟩
  · intro nm hnm ch hch
    have := h2 nm hnm ch hch
    exact ⟨by simpa using this.1, by simpa using this.2⟩
  · intro r hr c hcr
    have := h4 r hr c hcr
    refine ⟨?_, ?_⟩
    · intro ch hch
      have h5 := this.1 ch hch
      exact ⟨by simpa using h5.1, by simpa using h5.2⟩
    · rcases this.2 with h6 | h6
      · exact Or.inl h6
      · exact Or.inr (by simpa using h6)

theorem parse_write (sep : Char) (f : Frame) (hsep : ¬ sep = '\n')
    (hc : cleanFrame sep f = true) :
    parseCSV sep (writeCSV sep f) =
      ⟨f.header, f.rows.map (List.map textify)⟩ := by
  obtain ⟨hne, hnames, hlen, hcells⟩ := cleanFrame_parts hc
  have hlines : splitOnChar '\n' (writeCSV sep f).data =
      (joinSep sep (f.header.map String.data)) ::
        f.rows.map (fun r => joinSep sep (r.map fun c => (cellText c).data)) := by
    show splitOnChar '\n' (joinSep '\n' _) = _
    apply splitOnChar_joinSep (by simp)
    intro g hg hmem
    rcases List.mem_cons.mp hg with rfl | hg2
    · rcases mem_joinSep hmem with he | ⟨g2, hg2, hc2⟩
      · exact hsep he.symm
      · obtain ⟨nm, hnm, rfl⟩ := List.mem_map.mp hg2
        exact (hnames nm hnm '\n' hc2).2 rfl
    · obtain ⟨r, hr, rfl⟩ := List.mem_map.mp hg2
      rcases mem_joinSep hmem with he | ⟨g2, hg2, hc2⟩
      · exact hsep he.symm
      · obtain ⟨c, hcr, rfl⟩ := List.mem_map.mp hg2
        exact ((hcells r hr c hcr).1 '\n' hc2).2 rfl
  have hhead : splitOnChar sep (joinSep sep (f.header.map String.data)) =
      f.header.map String.data := by
    apply splitOnChar_joinSep (by simpa using hne)
    intro g hg hmem
    obtain ⟨nm, hnm, rfl⟩ := List.mem_map.mp hg
    exact (hnames nm hnm sep hmem).1 rfl
  simp only [parseCSV]
  rw [hlines]
  simp only [hhead, map_mk_data]
  rw [List.map_map]
  refine congrArg (Frame.mk f.header) ?_
  apply List.map_congr_left
  intro r hr
  have hrne : r.map (fun c => (cellText c).data) ≠ [] := by
    have h0 : r ≠ [] := by
      intro h
      have := hlen r hr
      rw [h] at this
      exact hne (List.eq_nil_of_length_eq_zero this.symm)
    simpa using h0
  have hsplit : splitOnChar sep (joinSep sep (r.map fun c => (cellText c).data)) =
      r.map (fun c => (cellText c).data) := by
    apply splitOnChar_joinSep hrne
    intro g hg hmem
    obtain ⟨c, hcr, rfl⟩ := List.mem_map.mp hg
    exact ((hcells r hr c hcr).1 sep hmem).1 rfl
  show normRow f.header.length
      ((splitOnChar sep (joinSep sep (r.map fun c => (cellText c).data))).map
        fieldToCell) = r.map textify
  rw [hsplit, List.map_map]
  rw [normRow_eq_self (by simpa using hlen r hr)]
  rfl

/-! ### Concrete tables and input files used as test vectors -/

/-- A tab-delimited input whose header lacks the `Status` column. -/
def noStatusCsv : String :=
  "Number\tOwner\tRelease\tCreated\tUpdated\n1\tBob\t17\t2023/01/01\t2023/01/11"

/-- A tab-delimited input with a `REVISAR` status in the first record and
an empty (null) status in the second. -/
def bugCsv : String :=
  "Number\tOwner\tStatus\tRelease\tCreated\tUpdated\n1\tBob\tREVISAR\t17\t2023/01/01\t2023/01/11\n2\tAnn\t\tTBD\t2023/02/01\t2023/02/05"

/-- A loaded-shape table with no rows at all. -/
def emptyTable : Frame :=
  ⟨["Number", "Title", "Owner", "Status", "Release", "Created", "Updated",
    "Year_Created", "Duration_Days"], []⟩

/-- A one-record table whose owner is null. -/
def nullOwnerTable : Frame := ⟨["Owner"], [[Cell.null]]⟩

/-- A small loaded-shape table for exercising the filter engine. -/
def selFrame : Frame :=
  ⟨["Status", "Year_Created", "Owner"],
   [[Cell.str "Active", Cell.int 2023, Cell.str "Bob"],
    [Cell.str "Draft", Cell.int 2024, Cell.str "Ann"],
    [Cell.str "Active", Cell.int 2024, Cell.str "Bob"]]⟩

/-- The release example from the specification: values
`["17", "21", "TBD", "REVISAR", "8u40"]`. -/
def relFrame : Frame :=
  ⟨["Release"],
   [[Cell.str "17"], [Cell.str "21"], [Cell.str "TBD"],
    [Cell.str "REVISAR"], [Cell.str "8u40"]]⟩

/-- A loaded-shape filtered table with timestamps, a null owner, and a
null duration, used for the export round trip. -/
def exportFrame : Frame :=
  ⟨["Number", "Title", "Owner", "Status", "Release", "Created", "Updated",
    "Year_Created", "Duration_Days"],
   [[Cell.str "1", Cell.str "Amber", Cell.str "Bob", Cell.str "Active",
     Cell.str "17", Cell.ts 1672531200, Cell.ts 1673395200, Cell.int 2023,
     Cell.int 10],
    [Cell.str "2", Cell.str "Loom", Cell.null, Cell.str "Draft",
     Cell.str "TBD", Cell.ts 1675209600, Cell.null, Cell.int 2023,
     Cell.null]]⟩

/-- The duration example from the specification: one record created
2023-01-01 and updated 2023-01-11, one created 2023-02-01 and never
updated. -/
def histCsv : String :=
  "Number\tOwner\tStatus\tRelease\tCreated\tUpdated\n1\tBob\tActive\t17\t2023/01/01\t2023/01/11\n2\tAnn\tDraft\tTBD\t2023/02/01\t"

/-- The table loaded from `histCsv`. -/
def histLoaded : Frame := ((load_data (ReadResult.ok histCsv)).1).getD ⟨[], []⟩

/-- An input exercising the duration computation: a ten-day record, a
record with no update, and a record whose update precedes its creation. -/
def durCsv : String :=
  "Number\tOwner\tStatus\tRelease\tCreated\tUpdated\n1\tBob\tActive\t17\t2023/01/01\t2023/01/11\n2\tAnn\tDraft\tTBD\t2023/02/01\t\n3\tEve\tActive\t21\t2023/03/01\t2023/02/01"

/-- The table loaded from `durCsv`. -/
def durLoaded : Frame := ((load_data (ReadResult.ok durCsv)).1).getD ⟨[], []⟩

/-! ### C5: loader failure modes -/

/-- Both loader failure modes return no table together with the
human-readable banner (the file-not-found message, respectively the
generic message wrapping the underlying exception text), and `main` shows
the guidance block exactly when no table came back. -/
theorem load_failure_modes (r : ReadResult) :
    (r = ReadResult.fileNotFound → load_data r = (none, some fnfMessage)) ∧
    (∀ m, r = ReadResult.readError m →
      load_data r = (none, some (loadErrMessage m))) ∧
    (∀ text em, r = ReadResult.ok text →
      loadFromFrame (parseCSV '\t' text) = Except.error em →
      load_data r = (none, some (loadErrMessage em))) ∧
    ((load_data r).1 = none → renderMain r = MainView.guidance) ∧
    (∀ t, (load_data r).1 = some t → renderMain r = MainView.dashboard t) := by
  refine ⟨?_, ?_, ?_, ?_, ?_⟩
  · rintro rfl
    rfl
  · rintro m rfl
    rfl
  · rintro text em rfl herr
    simp [load_data, herr]
  · intro h
    rw [renderMain, h]
  · intro t h
    rw [renderMain, h]

theorem load_failure_modes_witness :
    load_data ReadResult.fileNotFound = (none, some fnfMessage) ∧
    renderMain ReadResult.fileNotFound = MainView.guidance :=
  ⟨(load_failure_modes ReadResult.fileNotFound).1 rfl,
   (load_failure_modes ReadResult.fileNotFound).2.2.2.1 rfl⟩

/-! ### C1: a missing required column aborts the load -/

/-- The columns the loader body reads with `df[...]`; accessing any of
them on a frame that lacks it raises the `KeyError` that the generic
handler turns into "no table". -/
def requiredCols : List String :=
  ["Created", "Updated", "Status", "Owner", "Release"]

theorem not_mem_assign2 {hdr : List String} {c : String} (h : c ∉ hdr)
    (h1 : c ≠ "Year_Created") (h2 : c ≠ "Duration_Days") :
    c ∉ (assignCol (assignCol hdr "Year_Created").1 "Duration_Days").1 := by
  intro hmem
  rcases assignCol_mem hmem with hm | he
  · rcases assignCol_mem hm with hm2 | he2
    · exact h hm2
    · exact h1 he2
  · exact h2 he

theorem loadFromFrame_missing {f : Frame} {c : String} (hreq : c ∈ requiredCols)
    (habs : c ∉ f.header.map normName) :
    ∃ m, loadFromFrame f = Except.error m := by
  simp only [loadFromFrame]
  rcases List.mem_cons.mp hreq with rfl | hreq
  · rw [findCol_eq_none.mpr habs]
    exact ⟨"'Created'", rfl⟩
  rcases List.mem_cons.mp hreq with rfl | hreq
  · cases hC : findCol (f.header.map normName) "Created" with
    | none => exact ⟨"'Created'", rfl⟩
    | some ic =>
      rw [findCol_eq_none.mpr habs]
      exact ⟨"'Updated'", rfl⟩
  rcases List.mem_cons.mp hreq with rfl | hreq
  · cases hC : findCol (f.header.map normName) "Created" with
    | none => exact ⟨"'Created'", rfl⟩
    | some ic =>
      cases hU : findCol (f.header.map normName) "Updated" with
      | none => exact ⟨"'Updated'", rfl⟩
      | some iu =>
        rw [findCol_eq_none.mpr (not_mem_assign2 habs (by decide) (by decide))]
        exact ⟨"'Status'", rfl⟩
  rcases List.mem_cons.mp hreq with rfl | hreq
  · cases hC : findCol (f.header.map normName) "Created" with
    | none => exact ⟨"'Created'", rfl⟩
    | some ic =>
      cases hU : findCol (f.header.map normName) "Updated" with
      | none => exact ⟨"'Updated'", rfl⟩
      | some iu =>
        cases hS : findCol (assignCol (assignCol (f.header.map normName)
            "Year_Created").1 "Duration_Days").1 "Status" with
        | none => exact ⟨"'Status'", rfl⟩
        | some i3 =>
          rw [findCol_eq_none.mpr (not_mem_assign2 habs (by decide) (by decide))]
          exact ⟨"'Owner'", rfl⟩
  rcases List.mem_cons.mp hreq with rfl | hreq
  · cases hC : findCol (f.header.map normName) "Created" with
    | none => exact ⟨"'Created'", rfl⟩
    | some ic =>
      cases hU : findCol (f.header.map normName) "Updated" with
      | none => exact ⟨"'Updated'", rfl⟩
      | some iu =>
        cases hS : findCol (assignCol (assignCol (f.header.map normName)
            "Year_Created").1 "Duration_Days").1 "Status" with
        | none => exact ⟨"'Status'", rfl⟩
        | some i3 =>
          cases hO : findCol (assignCol (assignCol (f.header.map normName)
              "Year_Created").1 "Duration_Days").1 "Owner" with
          | none => exact ⟨"'Owner'", rfl⟩
          | some i4 =>
            rw [findCol_eq_none.mpr (not_mem_assign2 habs (by decide) (by decide))]
            exact ⟨"'Release'", rfl⟩
  exact absurd hreq (by simp)

/-- Amended C1: the loader does not synthesize an absent expected column;
if any of the five columns its body touches is missing from the
(normalized) header, the load fails through the generic handler and no
table is returned. -/
theorem load_missing_required_column_fails (text : String) (c : String)
    (hreq : c ∈ requiredCols)
    (habs : c ∉ (parseCSV '\t' text).header.map normName) :
    (load_data (ReadResult.ok text)).1 = none := by
  obtain ⟨m, hm⟩ := loadFromFrame_missing hreq habs
  simp [load_data, hm]

theorem load_missing_required_column_fails_witness :
    "Status" ∈ requiredCols ∧
    "Status" ∉ (parseCSV '\t' noStatusCsv).header.map normName ∧
    (load_data (ReadResult.ok noStatusCsv)).1 = none :=
  ⟨by decide, by decide,
   load_missing_required_column_fails noStatusCsv "Status" (by decide) (by decide)⟩

/-- Counterexample to C1 as stated: on an input whose header lacks
`Status`, `load_data` does not return a table with every status set to
`"Unknown"` — it returns no table at all, reporting the `KeyError`
text. -/
theorem load_missing_status_counterexample :
    load_data (ReadResult.ok noStatusCsv) =
      (none, some (loadErrMessage "'Status'")) := by
  decide

/-! ### C2: REVISAR is replaced, true nulls are not -/

/-- Evaluation of the loader at the failing input for C2: the literal
`REVISAR` status becomes `"Unknown"`, but the second record's null status
stays null, although the source comment says nulls are cleaned too
("Limpiar valores nulos y REVISAR"). -/
theorem revisar_replaced_null_preserved :
    ((load_data (ReadResult.ok bugCsv)).1.map (fun t => colCells t "Status")) =
      some [Cell.str "Unknown", Cell.null] ∧
    ((load_data (ReadResult.ok bugCsv)).1.map (fun t => colCells t "Owner")) =
      some [Cell.str "Bob", Cell.str "Ann"] := by
  constructor
  · decide
  · decide

/-! ### C8: aggregations over zero qualifying records -/

/-- Counterexample to C8 as stated: the status aggregation does not yield
a null/absent result over an empty table — it still returns a (empty) pie
figure; the placeholder comes from the caller's emptiness guard
instead. -/
theorem status_chart_empty_counterexample :
    emptyTable.rows = [] ∧ create_status_chart emptyTable = some [] := by
  constructor
  · rfl
  · decide

/-- Amended C8: over an empty filtered table the release and duration
builders themselves yield `None`, while the status, authors, and timeline
tabs skip their builders behind the `len(df_filtrado) > 0` guard; in
every case the tab renders the informational placeholder and no error is
raised. -/
theorem empty_aggregation_placeholders (t : Frame) (h : t.rows = []) :
    create_release_chart t = none ∧
    create_duration_analysis t = none ∧
    statusTabView t = TabView.placeholder ∧
    authorsTabView t = TabView.placeholder ∧
    timelineTabView t = TabView.placeholder ∧
    releaseTabView t = TabView.placeholder ∧
    durationTabView t = TabView.placeholder := by
  have hrel : create_release_chart t = none := by
    rw [create_release_chart]
    cases hfc : findCol t.header "Release" with
    | none => rfl
    | some i => simp [releaseStrings, h]
  have hdur : create_duration_analysis t = none := by
    rw [create_duration_analysis]
    cases hfc : findCol t.header "Duration_Days" with
    | none => rfl
    | some i => simp [h]
  refine ⟨hrel, hdur, ?_, ?_, ?_, ?_, ?_⟩
  · simp [statusTabView, h]
  · simp [authorsTabView, h]
  · simp [timelineTabView, h]
  · simp [releaseTabView, hrel]
  · simp [durationTabView, hdur]

theorem empty_aggregation_placeholders_witness :
    emptyTable.rows = [] ∧
    (create_release_chart emptyTable = none ∧
     create_duration_analysis emptyTable = none ∧
     statusTabView emptyTable = TabView.placeholder ∧
     authorsTabView emptyTable = TabView.placeholder ∧
     timelineTabView emptyTable = TabView.placeholder ∧
     releaseTabView emptyTable = TabView.placeholder ∧
     durationTabView emptyTable = TabView.placeholder) :=
  ⟨rfl, empty_aggregation_placeholders emptyTable rfl⟩

/-! ### C3: the filter engine -/

/-- Amended C3: the filter returns exactly the rows satisfying every
non-`'Todos'` equality predicate, conjoined, in original row order;
all-`'Todos'` returns the table unchanged; every owner-filtered result is
a sub-list of the table; and when no owner is null, the union of the
owner-filtered results over the distinct owner values reconstructs the
table (a null owner breaks this, since null compares unequal to
everything, itself included). -/
theorem filter_spec (t : Frame) (s y o : Cell)
    (hS : (findCol t.header "Status").isSome)
    (hY : (findCol t.header "Year_Created").isSome)
    (hO : (findCol t.header "Owner").isSome) :
    ((applyFilters t s y o).header = t.header ∧
     (applyFilters t s y o).rows = t.rows.filter (selPred t s y o)) ∧
    applyFilters t todos todos todos = t ∧
    (∀ v : Cell, ∀ r ∈ (colFilter t "Owner" v).rows, r ∈ t.rows) ∧
    ((∀ r ∈ t.rows, cellAt t "Owner" r ≠ Cell.null) →
      ownerUnionReconstructs t) := by
  obtain ⟨iS, hS2⟩ := Option.isSome_iff_exists.mp hS
  obtain ⟨iY, hY2⟩ := Option.isSome_iff_exists.mp hY
  obtain ⟨iO, hO2⟩ := Option.isSome_iff_exists.mp hO
  have h2h : (if s = todos then t else colFilter t "Status" s).header = t.header :=
    filterStep_header t "Status" s
  have h2r := filterStep_rows s hS2
  have hY3 : findCol (if s = todos then t else colFilter t "Status" s).header
      "Year_Created" = some iY := by rw [h2h]; exact hY2
  have h3h : (if y = todos then (if s = todos then t else colFilter t "Status" s)
      else colFilter (if s = todos then t else colFilter t "Status" s)
        "Year_Created" y).header =
      (if s = todos then t else colFilter t "Status" s).header :=
    filterStep_header _ "Year_Created" y
  have h3r := filterStep_rows y hY3
  have hO3 : findCol (if y = todos then (if s = todos then t else colFilter t
      "Status" s) else colFilter (if s = todos then t else colFilter t "Status" s)
        "Year_Created" y).header "Owner" = some iO := by
    rw [h3h, h2h]; exact hO2
  have h4r := filterStep_rows o hO3
  have h4h := filterStep_header (if y = todos then (if s = todos then t else
    colFilter t "Status" s) else colFilter (if s = todos then t else
    colFilter t "Status" s) "Year_Created" y) "Owner" o
  have happ : applyFilters t s y o =
      (if o = todos then (if y = todos then (if s = todos then t else
        colFilter t "Status" s) else colFilter (if s = todos then t else
        colFilter t "Status" s) "Year_Created" y) else
        colFilter (if y = todos then (if s = todos then t else
        colFilter t "Status" s) else colFilter (if s = todos then t else
        colFilter t "Status" s) "Year_Created" y) "Owner" o) := rfl
  refine ⟨⟨?_, ?_⟩, ?_, ?_, ?_⟩
  · rw [happ, h4h, h3h, h2h]
  · rw [happ, h4r, h3r, h2r, List.filter_filter, List.filter_filter]
    apply List.filter_congr
    intro r _
    rw [selPred, cellAt_eq r hS2, cellAt_eq r hY2, cellAt_eq r hO2]
    cases hb1 : (decide (s = todos) || cellEq (getC r iS) s) <;>
      cases hb2 : (decide (y = todos) || cellEq (getC r iY) y) <;>
      cases hb3 : (decide (o = todos) || cellEq (getC r iO) o) <;> rfl
  · simp [applyFilters, Frame.copy_eq]
  · intro v r hr
    rw [colFilter_rows v hO2] at hr
    exact List.mem_of_mem_filter hr
  · intro hnn r hr
    have hcell : cellAt t "Owner" r = getC r iO := cellAt_eq r hO2
    refine ⟨getC r iO, ?_, ?_⟩
    · rw [ownerValues]
      apply mem_uniqFirst.mpr
      rw [colCells, hO2]
      exact List.mem_map.mpr ⟨r, hr, rfl⟩
    · rw [colFilter_rows _ hO2]
      refine List.mem_filter.mpr ⟨hr, ?_⟩
      exact cellEq_self (hcell ▸ hnn r hr)

theorem filter_spec_witness :
    ((findCol selFrame.header "Status").isSome ∧
     (findCol selFrame.header "Year_Created").isSome ∧
     (findCol selFrame.header "Owner").isSome) ∧
    (((applyFilters selFrame (Cell.str "Active") todos todos).header =
        selFrame.header ∧
      (applyFilters selFrame (Cell.str "Active") todos todos).rows =
        selFrame.rows.filter (selPred selFrame (Cell.str "Active") todos todos)) ∧
     applyFilters selFrame todos todos todos = selFrame ∧
     (∀ v : Cell, ∀ r ∈ (colFilter selFrame "Owner" v).rows, r ∈ selFrame.rows) ∧
     ((∀ r ∈ selFrame.rows, cellAt selFrame "Owner" r ≠ Cell.null) →
       ownerUnionReconstructs selFrame)) :=
  ⟨⟨by decide, by decide, by decide⟩,
   filter_spec selFrame (Cell.str "Active") todos todos
     (by decide) (by decide) (by decide)⟩

/-- Counterexample to C3 as stated: in a table holding a record with a
null owner, that record belongs to no owner-filtered result, so the union
over all distinct owner values does not reconstruct the table. -/
theorem owner_union_counterexample : ¬ ownerUnionReconstructs nullOwnerTable := by
  decide

/-! ### C4: the release distribution -/

/-- C4: the release chart is `None` exactly when no `Release` value,
coerced to text, is purely decimal digits; otherwise it reports one entry
per distinct all-digit value, sorted ascending, each entry carrying the
positive count of the records with that coerced value. -/
theorem release_distribution_spec (t : Frame) (i : Nat)
    (hR : findCol t.header "Release" = some i) :
    (create_release_chart t = none ↔
      ∀ v ∈ releaseStrings t i, ¬ isDigitsStr v = true) ∧
    (∀ l, create_release_chart t = some l →
      (l.map Prod.fst).Pairwise (fun a b => strLe a b = true) ∧
      (l.map Prod.fst).Nodup ∧
      (∀ v : String, v ∈ l.map Prod.fst ↔
        v ∈ releaseStrings t i ∧ isDigitsStr v = true) ∧
      (∀ p ∈ l, p.2 = ((releaseStrings t i).filter isDigitsStr).count p.1 ∧
        0 < p.2)) := by
  have hopen : create_release_chart t =
      (if ((releaseStrings t i).filter isDigitsStr).isEmpty then none
       else some (sortLe (fun a b => strLe a.1 b.1)
        ((uniqFirst ((releaseStrings t i).filter isDigitsStr)).map
          (fun v => (v, ((releaseStrings t i).filter isDigitsStr).count v))))) := by
    rw [create_release_chart, hR]
  constructor
  · rw [hopen]
    by_cases he : ((releaseStrings t i).filter isDigitsStr).isEmpty
    · rw [if_pos he]
      simp only [true_iff]
      exact List.filter_eq_nil_iff.mp (List.isEmpty_iff.mp he)
    · rw [if_neg he]
      constructor
      · intro hc
        exact absurd hc (by simp)
      · intro hall
        exact absurd (List.isEmpty_iff.mpr (List.filter_eq_nil_iff.mpr hall)) he
  · intro l hl
    rw [hopen] at hl
    by_cases he : ((releaseStrings t i).filter isDigitsStr).isEmpty
    · rw [if_pos he] at hl
      exact absurd hl (by simp)
    · rw [if_neg he] at hl
      have hl2 : sortLe (fun a b => strLe a.1 b.1)
          ((uniqFirst ((releaseStrings t i).filter isDigitsStr)).map
            (fun v => (v, ((releaseStrings t i).filter isDigitsStr).count v))) = l := by
        exact Option.some.inj hl
      have hperm := perm_sortLe (fun a b : String × Nat => strLe a.1 b.1)
        ((uniqFirst ((releaseStrings t i).filter isDigitsStr)).map
          (fun v => (v, ((releaseStrings t i).filter isDigitsStr).count v)))
      rw [hl2] at hperm
      have hkeys : ((uniqFirst ((releaseStrings t i).filter isDigitsStr)).map
          (fun v => (v, ((releaseStrings t i).filter isDigitsStr).count v))).map
            Prod.fst =
          uniqFirst ((releaseStrings t i).filter isDigitsStr) := by
        rw [List.map_map]
        exact List.map_id _
      have hkperm := hperm.map Prod.fst
      rw [hkeys] at hkperm
      refine ⟨?_, ?_, ?_, ?_⟩
      · have hpw := @pairwise_sortLe (String × Nat)
          (fun a b => strLe a.1 b.1)
          (fun a b h => strLe_total a.1 b.1 h)
          (fun a b c h1 h2 => strLe_trans a.1 b.1 c.1 h1 h2)
          ((uniqFirst ((releaseStrings t i).filter isDigitsStr)).map
            (fun v => (v, ((releaseStrings t i).filter isDigitsStr).count v)))
        rw [hl2] at hpw
        exact List.pairwise_map.mpr hpw
      · exact (hkperm.nodup_iff).mpr (nodup_uniqFirst _)
      · intro v
        rw [hkperm.mem_iff, mem_uniqFirst, List.mem_filter]
      · intro p hp
        have hp2 : p ∈ (uniqFirst ((releaseStrings t i).filter isDigitsStr)).map
            (fun v => (v, ((releaseStrings t i).filter isDigitsStr).count v)) :=
          hperm.subset (hl2 ▸ hp)
        obtain ⟨v, hv, hpv⟩ := List.mem_map.mp hp2
        have hvmem : v ∈ (releaseStrings t i).filter isDigitsStr :=
          mem_uniqFirst.mp hv
        constructor
        · rw [← hpv]
        · rw [← hpv]
          exact List.count_pos_iff.mpr hvmem

theorem release_distribution_spec_witness :
    findCol relFrame.header "Release" = some 0 ∧
    (create_release_chart relFrame = none ↔
      ∀ v ∈ releaseStrings relFrame 0, ¬ isDigitsStr v = true) ∧
    create_release_chart relFrame = some [("17", 1), ("21", 1)] :=
  ⟨by decide, (release_distribution_spec relFrame 0 (by decide)).1, by decide⟩

/-! ### C6: the Duration_Days derivation -/

/-- C6: in every loaded table, `Duration_Days` is null exactly when
`Created` or `Updated` is null, and on non-null pairs it equals the
whole-day (floor) difference Updated minus Created — which may be
negative; nothing rejects negative durations. -/
theorem duration_days_spec (f t : Frame) (hld : loadFromFrame f = Except.ok t)
    (hwf : f.wf) :
    ∀ r ∈ t.rows,
      (cellAt t "Duration_Days" r = Cell.null ↔
        (cellAt t "Created" r = Cell.null ∨ cellAt t "Updated" r = Cell.null)) ∧
      (∀ tc tu : Int, cellAt t "Created" r = Cell.ts tc →
        cellAt t "Updated" r = Cell.ts tu →
        cellAt t "Duration_Days" r = Cell.int ((tu - tc).fdiv secPerDay)) := by
  simp only [loadFromFrame] at hld
  split at hld
  · exact absurd hld (by simp)
  rename_i ic hC
  split at hld
  · exact absurd hld (by simp)
  rename_i iu hU
  split at hld
  · exact absurd hld (by simp)
  rename_i istat hS
  split at hld
  · exact absurd hld (by simp)
  rename_i iown hOw
  split at hld
  · exact absurd hld (by simp)
  rename_i irel hR
  have hteq := Except.ok.inj hld
  subst hteq
  have hCt : findCol (assignCol (assignCol (List.map normName f.header)
      "Year_Created").1 "Duration_Days").1 "Created" = some ic := by
    rw [assignCol_preserve (by decide), assignCol_preserve (by decide)]
    exact hC
  have hUt : findCol (assignCol (assignCol (List.map normName f.header)
      "Year_Created").1 "Duration_Days").1 "Updated" = some iu := by
    rw [assignCol_preserve (by decide), assignCol_preserve (by decide)]
    exact hU
  have hYt : findCol (assignCol (assignCol (List.map normName f.header)
      "Year_Created").1 "Duration_Days").1 "Year_Created" =
      some (assignCol (List.map normName f.header) "Year_Created").2 := by
    rw [assignCol_preserve (by decide)]
    exact assignCol_findCol _ _
  have hDt : findCol (assignCol (assignCol (List.map normName f.header)
      "Year_Created").1 "Duration_Days").1 "Duration_Days" =
      some (assignCol (assignCol (List.map normName f.header)
        "Year_Created").1 "Duration_Days").2 :=
    assignCol_findCol _ _
  have nC := findCol_getD hCt
  have nU := findCol_getD hUt
  have nY := findCol_getD hYt
  have nD := findCol_getD hDt
  have nS := findCol_getD hS
  have nO := findCol_getD hOw
  have nR := findCol_getD hR
  have hdiff : ∀ {a b : Nat} {na nb : String},
      (assignCol (assignCol (List.map normName f.header) "Year_Created").1
        "Duration_Days").1.getD a "" = na →
      (assignCol (assignCol (List.map normName f.header) "Year_Created").1
        "Duration_Days").1.getD b "" = nb →
      na ≠ nb → a ≠ b := by
    intro a b na nb ha hb hne he
    subst he
    exact hne (ha.symm.trans hb)
  have dciu : ic ≠ iu := hdiff nC nU (by decide)
  have d1 := hdiff nY nC (by decide)
  have d2 := hdiff nY nU (by decide)
  have d3 := hdiff nD nC (by decide)
  have d4 := hdiff nD nU (by decide)
  have d5 := hdiff nS nC (by decide)
  have d6 := hdiff nS nU (by decide)
  have d7 := hdiff nS nD (by decide)
  have d8 := hdiff nO nC (by decide)
  have d9 := hdiff nO nU (by decide)
  have d10 := hdiff nO nD (by decide)
  have d11 := hdiff nR nC (by decide)
  have d12 := hdiff nR nU (by decide)
  have d13 := hdiff nR nD (by decide)
  have bic : ic < (List.map normName f.header).length := findCol_lt_length hC
  have biu : iu < (List.map normName f.header).length := findCol_lt_length hU
  have bdur := findCol_lt_length hDt
  have bnm : (List.map normName f.header).length ≤
      (assignCol (assignCol (List.map normName f.header) "Year_Created").1
        "Duration_Days").1.length :=
    le_trans (assignCol_le_length _ _) (assignCol_le_length _ _)
  intro r hr
  obtain ⟨r0, hr0, rfl⟩ := List.mem_map.mp hr
  have hlen0 : r0.length = (List.map normName f.header).length := by
    rw [List.length_map]
    exact hwf r0 hr0
  obtain ⟨gic, giu, gdur⟩ := procRow_getC ic iu
    (assignCol (List.map normName f.header) "Year_Created").2
    (assignCol (assignCol (List.map normName f.header) "Year_Created").1
      "Duration_Days").2 istat iown irel
    (assignCol (assignCol (List.map normName f.header) "Year_Created").1
      "Duration_Days").1.length r0
    (by rw [hlen0]; exact bic) (by rw [hlen0]; exact biu)
    (by rw [hlen0]; exact bnm) bdur dciu
    d1 d2 d3 d4 d5 d6 d7 d8 d9 d10 d11 d12 d13
  have eC : cellAt ⟨(assignCol (assignCol (List.map normName f.header)
        "Year_Created").1 "Duration_Days").1,
      List.map (procRow ic iu
        (assignCol (List.map normName f.header) "Year_Created").2
        (assignCol (assignCol (List.map normName f.header) "Year_Created").1
          "Duration_Days").2 istat iown irel
        (assignCol (assignCol (List.map normName f.header) "Year_Created").1
          "Duration_Days").1.length) f.rows⟩ "Created"
      (procRow ic iu
        (assignCol (List.map normName f.header) "Year_Created").2
        (assignCol (assignCol (List.map normName f.header) "Year_Created").1
          "Duration_Days").2 istat iown irel
        (assignCol (assignCol (List.map normName f.header) "Year_Created").1
          "Duration_Days").1.length r0) = toDatetime (getC r0 ic) := by
    rw [cellAt_eq _ hCt]
    exact gic
  have eU : cellAt ⟨(assignCol (assignCol (List.map normName f.header)
        "Year_Created").1 "Duration_Days").1,
      List.map (procRow ic iu
        (assignCol (List.map normName f.header) "Year_Created").2
        (assignCol (assignCol (List.map normName f.header) "Year_Created").1
          "Duration_Days").2 istat iown irel
        (assignCol (assignCol (List.map normName f.header) "Year_Created").1
          "Duration_Days").1.length) f.rows⟩ "Updated"
      (procRow ic iu
        (assignCol (List.map normName f.header) "Year_Created").2
        (assignCol (assignCol (List.map normName f.header) "Year_Created").1
          "Duration_Days").2 istat iown irel
        (assignCol (assignCol (List.map normName f.header) "Year_Created").1
          "Duration_Days").1.length r0) = toDatetime (getC r0 iu) := by
    rw [cellAt_eq _ hUt]
    exact giu
  have eD : cellAt ⟨(assignCol (assignCol (List.map normName f.header)
        "Year_Created").1 "Duration_Days").1,
      List.map (procRow ic iu
        (assignCol (List.map normName f.header) "Year_Created").2
        (assignCol (assignCol (List.map normName f.header) "Year_Created").1
          "Duration_Days").2 istat iown irel
        (assignCol (assignCol (List.map normName f.header) "Year_Created").1
          "Duration_Days").1.length) f.rows⟩ "Duration_Days"
      (procRow ic iu
        (assignCol (List.map normName f.header) "Year_Created").2
        (assignCol (assignCol (List.map normName f.header) "Year_Created").1
          "Duration_Days").2 istat iown irel
        (assignCol (assignCol (List.map normName f.header) "Year_Created").1
          "Duration_Days").1.length r0) =
      durCell (toDatetime (getC r0 iu)) (toDatetime (getC r0 ic)) := by
    rw [cellAt_eq _ hDt]
    exact gdur
  refine ⟨?_, ?_⟩
  · rw [eD, eC, eU]
    rcases toDatetime_cases (getC r0 ic) with hc0 | ⟨xc, hc0⟩ <;>
      rcases toDatetime_cases (getC r0 iu) with hu0 | ⟨xu, hu0⟩ <;>
      rw [hc0, hu0] <;> simp [durCell]
  · intro tc tu htc htu
    rw [eC] at htc
    rw [eU] at htu
    rw [eD, htu, htc]
    rfl

theorem duration_days_spec_witness :
    Frame.wf (parseCSV '\t' durCsv) ∧
    loadFromFrame (parseCSV '\t' durCsv) = Except.ok durLoaded ∧
    (∀ r ∈ durLoaded.rows,
      (cellAt durLoaded "Duration_Days" r = Cell.null ↔
        (cellAt durLoaded "Created" r = Cell.null ∨
         cellAt durLoaded "Updated" r = Cell.null)) ∧
      (∀ tc tu : Int, cellAt durLoaded "Created" r = Cell.ts tc →
        cellAt durLoaded "Updated" r = Cell.ts tu →
        cellAt durLoaded "Duration_Days" r =
          Cell.int ((tu - tc).fdiv secPerDay))) ∧
    colCells durLoaded "Duration_Days" =
      [Cell.int 10, Cell.null, Cell.int (-28)] :=
  ⟨by decide, by rfl,
   duration_days_spec (parseCSV '\t' durCsv) durLoaded (by rfl) (by decide),
   by decide⟩

/-! ### C7: the duration histogram -/

theorem cellPos_int {c : Cell} (h : cellPos c = true) :
    ∃ n : Int, c = Cell.int n ∧ 0 < n := by
  cases c with
  | int n => exact ⟨n, rfl, by simpa [cellPos] using h⟩
  | str s => simp [cellPos] at h
  | ts t => simp [cellPos] at h
  | null => simp [cellPos] at h

/-- C7: the duration analysis is `None` exactly when no record has a
strictly positive `Duration_Days`; otherwise it charts precisely the
positive durations (nulls and non-positive values excluded, in row
order) as a histogram with 30 bins. -/
theorem duration_histogram_spec (t : Frame) (i : Nat)
    (hD : findCol t.header "Duration_Days" = some i) :
    (create_duration_analysis t = none ↔
      ∀ c ∈ t.rows.map (fun r => getC r i), ¬ cellPos c = true) ∧
    (∀ l b, create_duration_analysis t = some (l, b) →
      b = 30 ∧ l = (t.rows.map (fun r => getC r i)).filter cellPos ∧
      ∀ c ∈ l, ∃ n : Int, c = Cell.int n ∧ 0 < n) := by
  have hopen : create_duration_analysis t =
      (if ((t.rows.map (fun r => getC r i)).filter cellPos).isEmpty then none
       else some ((t.rows.map (fun r => getC r i)).filter cellPos, 30)) := by
    rw [create_duration_analysis, hD]
  constructor
  · rw [hopen]
    by_cases he : ((t.rows.map (fun r => getC r i)).filter cellPos).isEmpty
    · rw [if_pos he]
      simp only [true_iff]
      exact List.filter_eq_nil_iff.mp (List.isEmpty_iff.mp he)
    · rw [if_neg he]
      constructor
      · intro hcontra
        exact absurd hcontra (by simp)
      · intro hall
        exact absurd (List.isEmpty_iff.mpr (List.filter_eq_nil_iff.mpr hall)) he
  · intro l b hl
    rw [hopen] at hl
    by_cases he : ((t.rows.map (fun r => getC r i)).filter cellPos).isEmpty
    · rw [if_pos he] at hl
      exact absurd hl (by simp)
    · rw [if_neg he] at hl
      have hpair := Option.some.inj hl
      have hl2 : l = (t.rows.map (fun r => getC r i)).filter cellPos :=
        (congrArg Prod.fst hpair).symm
      have hb : b = 30 := (congrArg Prod.snd hpair).symm
      refine ⟨hb, hl2, ?_⟩
      intro c hcl
      rw [hl2] at hcl
      exact cellPos_int (List.mem_filter.mp hcl).2

theorem duration_histogram_spec_witness :
    findCol histLoaded.header "Duration_Days" = some 7 ∧
    (create_duration_analysis histLoaded = none ↔
      ∀ c ∈ histLoaded.rows.map (fun r => getC r 7), ¬ cellPos c = true) ∧
    create_duration_analysis histLoaded = some ([Cell.int 10], 30) :=
  ⟨by decide, (duration_histogram_spec histLoaded 7 (by decide)).1, by decide⟩

/-! ### C9: the export round trip -/

/-- Amended C9: parsing the exported text back with a parser that uses the
export's own delimiter (the comma of `to_csv`) reproduces every source
column's values, timestamps through their text encoding.  The loader's own
parser uses the tab delimiter and does not satisfy the round trip — see
the counterexample. -/
theorem roundtrip_comma_spec (f : Frame) (hc : cleanFrame ',' f = true) :
    sourceValuesReproduced f (parseCSV ',' (writeCSV ',' f)) := by
  rw [parse_write ',' f (by decide) hc]
  intro c _
  rw [colTextVals, colTextVals]
  cases hfc : findCol f.header c with
  | none => rfl
  | some i =>
    simp only [Option.map_some']
    refine congrArg some ?_
    rw [List.map_map]
    apply List.map_congr_left
    intro r _
    show cellText (getC (r.map textify) i) = cellText (getC r i)
    rw [getC_map textify_null]
    exact cellText_textify _

theorem roundtrip_comma_spec_witness :
    cleanFrame ',' exportFrame = true ∧
    sourceValuesReproduced exportFrame
      (parseCSV ',' (writeCSV ',' exportFrame)) :=
  ⟨by decide, roundtrip_comma_spec exportFrame (by decide)⟩

set_option maxRecDepth 8000 in
/-- Counterexample to C9 as stated: the export serializes with a comma
while the loader parses on tabs, so re-parsing the export with the
loader's parser collapses each record into a single field and reproduces
no source column. -/
theorem roundtrip_tab_counterexample :
    ¬ sourceValuesReproduced exportFrame
      (parseCSV '\t' (writeCSV ',' exportFrame)) := by
  decide

/-! ### C10: no operation mutates the stored table -/

/-- Every filter/aggregate operation leaves the loaded table untouched:
filtering starts from `df.copy()` and the aggregations only read (the
release builder coerces on its own copy), so running any sequence of
operations returns the stored table unchanged, records and columns
alike. -/
theorem ops_preserve_table (t : Frame) (ops : List Op) :
    (runOps t ops).1 = t := by
  induction ops generalizing t with
  | nil => rfl
  | cons op rest ih =>
    have hop : (runOp t op).1 = t := by cases op <;> rfl
    simp only [runOps]
    rw [ih, hop]

end JepApp
